import Mathlib

/-!
Verification of the item-collection and PDF-rendering pipeline of
`flask_solar_materials_app.py` (a Flask bill-of-materials app for solar
installations).

The embedding models:
* the form submission as an ordered list of key/value string pairs
  (werkzeug's `request.form`, a `MultiDict`; iterating `keys()` yields each
  key once, in first-occurrence order, and `get` returns the first value);
* CPython's `float(str)` conversion on finite decimal literals as
  `pyFloat?` returning `Option ℚ` (`'inf'`/`'nan'` and underscore-grouped
  literals fall outside the rational embedding and are treated as
  unparseable; machine floats are modelled as exact rationals);
* the `create` route's item-collection loop (`collect` / `processKey`);
* `generate_pdf`'s document construction: output path, element list,
  materials table and signature block, with wall-clock `datetime.now()`
  passed in explicitly as an `Instant` (which carries microseconds that the
  `%Y-%m-%d_%H%M%S` filename format drops).
-/

/-- A form field value looked up by key: Python `request.form.get(k)`,
returning the first value bound to `k`, or `None`. -/
def formGet (form : List (String × String)) (k : String) : Option String :=
  (form.find? (fun p => p.1 == k)).map (fun p => p.2)

/-- First-occurrence-order deduplication of a key list, as a `dict`'s
`keys()` view yields each key once in insertion order. -/
def dedupKeys : List String → List String → List String
  | [], _ => []
  | k :: ks, seen => if k ∈ seen then dedupKeys ks seen else k :: dedupKeys ks (k :: seen)

/-- The keys iterated by `for key in request.form.keys()`. -/
def formKeys (form : List (String × String)) : List String :=
  dedupKeys (form.map Prod.fst) []

/-- ASCII decimal digit test (Python `str.isdigit` on one character). -/
def isDecDigit (c : Char) : Bool := '0' ≤ c && c ≤ '9'

/-- Numeric value of a list of ASCII digits, most significant first. -/
def digitsVal (l : List Char) : Nat :=
  l.foldl (fun a c => a * 10 + (c.toNat - 48)) 0

/-- Whitespace stripped by CPython's `float()` before parsing. -/
def isPySpace (c : Char) : Bool := c = ' ' || c = '\t' || c = '\n' || c = '\r'

/-- Parse an unsigned decimal mantissa (`digits`, `digits.digits`,
`.digits` or `digits.`), returning numerator and number of fractional
digits (value is `n / 10 ^ dpow`) and the unconsumed suffix. -/
def parseMantissa (l : List Char) : Option ((Nat × Nat) × List Char) :=
  let ip := l.takeWhile isDecDigit
  let rest := l.dropWhile isDecDigit
  match rest with
  | '.' :: rest2 =>
    let fp := rest2.takeWhile isDecDigit
    let rest3 := rest2.dropWhile isDecDigit
    if ip.isEmpty && fp.isEmpty then none
    else some ((digitsVal ip * 10 ^ fp.length + digitsVal fp, fp.length), rest3)
  | _ => if ip.isEmpty then none else some ((digitsVal ip, 0), rest)

/-- CPython `float(s)` on finite decimal literals (optional sign, decimal
point, exponent, surrounding whitespace): `some` of the exact rational
value, or `none` when `float()` raises `ValueError`.  The arithmetic stays
on integers until a single final `mkRat`. -/
def pyFloat? (s : String) : Option ℚ :=
  let l := ((s.data.dropWhile isPySpace).reverse.dropWhile isPySpace).reverse
  let (neg, l1) : Bool × List Char :=
    match l with
    | '+' :: r => (false, r)
    | '-' :: r => (true, r)
    | _ => (false, l)
  match parseMantissa l1 with
  | none => none
  | some ((mn, dpow), rest) =>
    let sn : Int := if neg then -(mn : Int) else (mn : Int)
    match rest with
    | [] => some (mkRat sn (10 ^ dpow))
    | e :: r2 =>
      if e = 'e' || e = 'E' then
        let (eneg, r3) : Bool × List Char :=
          match r2 with
          | '+' :: r => (false, r)
          | '-' :: r => (true, r)
          | _ => (false, r2)
        let ed := r3.takeWhile isDecDigit
        let r4 := r3.dropWhile isDecDigit
        if ed.isEmpty || !r4.isEmpty then none
        else if eneg then some (mkRat sn (10 ^ (dpow + digitsVal ed)))
        else some (mkRat (sn * 10 ^ digitsVal ed) (10 ^ dpow))
      else none

/-- Python `s.startswith(pre)` (structurally recursive on the character
lists, so that proofs can evaluate it). -/
def strStartsWith (s pre : String) : Bool :=
  pre.data.isPrefixOf s.data

/-- Worker for Python `s.split(sep)` with non-empty `sep`: leftmost
non-overlapping matches; `fuel` bounds the recursion by the input length. -/
def pySplitGo (sep : List Char) : Nat → List Char → List Char → List (List Char) → List (List Char)
  | _, [], acc, r => (acc.reverse :: r).reverse
  | 0, l, acc, r => ((acc.reverse ++ l) :: r).reverse
  | fuel + 1, c :: cs, acc, r =>
    if sep.isPrefixOf (c :: cs) then
      pySplitGo sep fuel ((c :: cs).drop sep.length) [] (acc.reverse :: r)
    else pySplitGo sep fuel cs (c :: acc) r

/-- Python `s.split(sep)` for non-empty `sep`. -/
def pySplit (s sep : String) : List String :=
  (pySplitGo sep.data s.data.length s.data [] []).map String.mk

/-- One material entry produced by the `create` route's collection loop:
the dict `{"code": ..., "name": ..., "unit": ..., "qty": float(qty)}`. -/
structure LineItem where
  code : String
  name : String
  unit : String
  qty : ℚ
  deriving DecidableEq, Repr

/-- The item dict built for suffix `uid` once `float(qty) > 0` held:
sibling fields are looked up with `request.form.get(f"..._{uid}", "")`,
so a missing sibling defaults to the empty string. -/
def mkItem (form : List (String × String)) (uid : String) (q : ℚ) : LineItem :=
  { code := (formGet form ("code_extra_" ++ uid)).getD ""
    name := (formGet form ("name_extra_" ++ uid)).getD ""
    unit := (formGet form ("unit_extra_" ++ uid)).getD ""
    qty := q }

/-- The suffix the code extracts: `key.split("qty_extra_")[1]`. -/
def extractUid (key : String) : String :=
  (pySplit key "qty_extra_").getD 1 ""

/-- One iteration of the collection loop for a key of `request.form`:
`ok none` when the candidate is skipped, `ok (some item)` when appended,
`error` when the uncaught `float(qty)` conversion raises `ValueError`. -/
def processKey (form : List (String × String)) (key : String) :
    Except String (Option LineItem) :=
  if strStartsWith key "qty_extra_" then
    match formGet form key with
    | none => .ok none
    | some v =>
      if v = "" then .ok none
      else
        match pyFloat? v with
        | none => .error "ValueError: could not convert string to float"
        | some q => if 0 < q then .ok (some (mkItem form (extractUid key) q)) else .ok none
  else .ok none

/-- The collection loop over a key list, accumulating `items` in iteration
order; an uncaught exception aborts the whole request. -/
def collectAux (form : List (String × String)) :
    List String → Except String (List LineItem)
  | [] => .ok []
  | k :: ks =>
    match processKey form k with
    | .error e => .error e
    | .ok none => collectAux form ks
    | .ok (some it) =>
      match collectAux form ks with
      | .error e => .error e
      | .ok rest => .ok (it :: rest)

/-- The Line-Item Collector: the `for key in request.form.keys()` loop of
the `create` route. -/
def collect (form : List (String × String)) : Except String (List LineItem) :=
  collectAux form (formKeys form)

instance {ε α : Type} [DecidableEq ε] [DecidableEq α] : DecidableEq (Except ε α) := fun x y =>
  match x, y with
  | .error e, .error e' =>
    if h : e = e' then isTrue (congrArg Except.error h)
    else isFalse (fun hh => h (Except.error.inj hh))
  | .error _, .ok _ => isFalse (fun hh => Except.noConfusion hh)
  | .ok _, .error _ => isFalse (fun hh => Except.noConfusion hh)
  | .ok a, .ok b =>
    if h : a = b then isTrue (congrArg Except.ok h)
    else isFalse (fun hh => h (Except.ok.inj hh))

/-- Outcome of the `create` route, up to persistence:
`exception` models an uncaught error (HTTP 500, nothing stored);
`noItemsRedirect` models `flash('Nenhum material selecionado.')` plus
`redirect(url_for('index'))` with no row inserted;
`created items` models the insert–render–update sequence succeeding. -/
inductive CreateResult where
  | exception (msg : String)
  | noItemsRedirect
  | created (items : List LineItem)
  deriving DecidableEq, Repr

/-- The `create` route: `request.form['client']` and
`request.form['technician']` raise `KeyError` when absent; then the
Collector runs; an empty item list redirects back to the form with a
warning and no record; otherwise the record is created. -/
def create (form : List (String × String)) : CreateResult :=
  match formGet form "client" with
  | none => .exception "KeyError: client"
  | some _ =>
    match formGet form "technician" with
    | none => .exception "KeyError: technician"
    | some _ =>
      match collect form with
      | .error e => .exception e
      | .ok [] => .noItemsRedirect
      | .ok items => .created items

/-- A JSON-decoded value found in a stored item's `qty` slot: a number as
written by `create`, or a string after storage corruption. -/
inductive PyVal where
  | num (q : ℚ)
  | str (s : String)
  deriving DecidableEq, Repr

/-- A stored item dict as `generate_pdf` sees it: each field looked up
defensively with `it.get(...)`, so any key may be absent. -/
structure StoredItem where
  code : Option String
  name : Option String
  unit : Option String
  qty : Option PyVal
  deriving DecidableEq, Repr

/-- Python `float(it.get('qty', 0))`: the missing-key default `0` converts to
`0.0`; a stored number converts to itself; a stored string goes through
`float(str)` and may raise (`error`). -/
def pyFloatOfQty : Option PyVal → Except Unit ℚ
  | none => .ok 0
  | some (.num q) => .ok q
  | some (.str s) =>
    match pyFloat? s with
    | some q => .ok q
    | none => .error ()

/-- Number of decimal digits after the point in `q`'s exact decimal
expansion (capped at 64; a double's value always has a finite one). -/
def decExp (q : ℚ) : Nat :=
  ((List.range 65).find? (fun e => 10 ^ e % q.den = 0)).getD 64

/-- Zero-pad a numeral on the left to `e` characters. -/
def fracPad (e : Nat) (n : Nat) : String :=
  let s := toString n
  String.mk (List.replicate (e - s.length) '0') ++ s

/-- Factor powers of ten out of a positive numeral: `stripZeros fuel n`
is `(m, k)` with `n = m * 10 ^ k` and `m` not a multiple of ten (`fuel`
bounds the recursion by the digit count). -/
def stripZeros : Nat → Nat → Nat × Nat
  | 0, n => (n, 0)
  | fuel + 1, n =>
    if n % 10 = 0 && n != 0 then
      let p := stripZeros fuel (n / 10)
      (p.1, p.2 + 1)
    else (n, 0)

/-- Decimal exponent of `q`'s scientific form (`floor (log10 |q|)` for the
exact stored decimal `± a / 10 ^ e`): one less than `a`'s digit count,
minus `e`. -/
def sciExp10 (q : ℚ) : Int :=
  ((toString (q.num.natAbs * 10 ^ decExp q / q.den)).length : Int) - 1 - decExp q

/-- CPython `repr` of a nonzero float uses scientific notation exactly
when the decimal exponent is below `-4` or at least `16`. -/
def usesSciRepr (q : ℚ) : Bool :=
  sciExp10 q < -4 || 16 ≤ sciExp10 q

/-- Positional branch of CPython float `repr`: sign, integer part, `'.'`,
fractional digits (integral values print a trailing `.0`). -/
def reprPos (q : ℚ) : String :=
  let e := decExp q
  let a := q.num.natAbs * 10 ^ e / q.den
  let sign := if q.num < 0 then "-" else ""
  if e = 0 then sign ++ toString a ++ ".0"
  else sign ++ toString (a / 10 ^ e) ++ "." ++ fracPad e (a % 10 ^ e)

/-- Scientific branch of CPython float `repr`: mantissa `d.ddd` from the
significant digits (no point when there is a single digit), then a signed
exponent zero-padded to at least two digits (`1e-05`, `1.5e-05`,
`1e+16`). -/
def reprSci (q : ℚ) : String :=
  let e := decExp q
  let a := q.num.natAbs * 10 ^ e / q.den
  let sign := if q.num < 0 then "-" else ""
  let p := stripZeros (toString a).length a
  let dchars := (toString p.1).data
  let mant : String :=
    match dchars with
    | [] => "0"
    | [d] => String.mk [d]
    | d :: rest => String.mk [d] ++ "." ++ String.mk rest
  let e10 : Int := (dchars.length : Int) + p.2 - 1 - e
  let estr :=
    if e10 < 0 then "e-" ++ fracPad 2 e10.natAbs
    else "e+" ++ fracPad 2 e10.toNat
  sign ++ mant ++ estr

/-- Python `f"{q_val}"` for a float value (its `repr`): positional
decimal while the decimal exponent lies in `[-4, 16)`, scientific
notation outside that range — CPython's `repr` threshold.  The digits
are those of the exact stored decimal (a double's shortest round-trip
`repr` prints exactly the stored decimal in this model). -/
def pyFloatRepr (q : ℚ) : String :=
  if q.num = 0 then "0.0"
  else if usesSciRepr q then reprSci q else reprPos q

/-- Python `.replace('.', ',')` on the rendered quantity: a single-character
substring replacement, i.e. a character-wise map. -/
def replaceDotComma (s : String) : String :=
  String.mk (s.data.map (fun c => if c = '.' then ',' else c))

/-- Python `str(it.get('qty', 0))`, the renderer's defensive fallback. -/
def pyStrOfQty : Option PyVal → String
  | none => "0"
  | some (.num q) => pyFloatRepr q
  | some (.str s) => s

/-- A wall-clock instant as `datetime.now()` yields it; `micro` carries the
sub-second precision that the `%Y-%m-%d_%H%M%S` format drops. -/
structure Instant where
  year : Nat
  month : Nat
  day : Nat
  hour : Nat
  minute : Nat
  second : Nat
  micro : Nat
  deriving DecidableEq, Repr

/-- Zero-padding of a numeral to `w` characters, as `strftime` pads. -/
def zeroPad (w : Nat) (n : Nat) : String :=
  let s := toString n
  String.mk (List.replicate (w - s.length) '0') ++ s

/-- Formatting `datetime.now().strftime('%Y-%m-%d_%H%M%S')`. -/
def strftimeYmdHMS (t : Instant) : String :=
  zeroPad 4 t.year ++ "-" ++ zeroPad 2 t.month ++ "-" ++ zeroPad 2 t.day ++ "_" ++
    zeroPad 2 t.hour ++ zeroPad 2 t.minute ++ zeroPad 2 t.second

/-- Formatting `datetime.now().strftime("%d/%m/%Y %H:%M")` (metadata block). -/
def strftimeInfo (t : Instant) : String :=
  zeroPad 2 t.day ++ "/" ++ zeroPad 2 t.month ++ "/" ++ zeroPad 4 t.year ++ " " ++
    zeroPad 2 t.hour ++ ":" ++ zeroPad 2 t.minute

/-- The `PDF_FOLDER` directory (modelled relative to the app's base directory). -/
def PDF_FOLDER : String := "pdfs"

/-- The filename `f'lista_(list_id)_(now).pdf'` with `now` the formatted timestamp. -/
def pdfFilename (listId : Nat) (t : Instant) : String :=
  "lista_" ++ toString listId ++ "_" ++ strftimeYmdHMS t ++ ".pdf"

/-- The full path `os.path.join(PDF_FOLDER, filename)`. -/
def pdfFilepath (listId : Nat) (t : Instant) : String :=
  PDF_FOLDER ++ "/" ++ pdfFilename listId t

/-- The quantity cell of one table row: the `try`/`except` block around
`float(it.get('qty', 0))` — whole numbers print via `int(q_val)`, other
numbers via `f"{q_val}".replace('.', ',')`, and a failed conversion falls
back to `str(it.get('qty', 0))`.  Total: the renderer never raises here. -/
def qtyCell (it : StoredItem) : String :=
  match pyFloatOfQty it.qty with
  | .ok q => if q.den = 1 then toString q.num else replaceDotComma (pyFloatRepr q)
  | .error _ => pyStrOfQty it.qty

/-- The description cell's text: `Paragraph(it.get('name', 'N/A'), styleN)`
— the `'N/A'` default applies only when the `name` key is absent. -/
def nameCell (it : StoredItem) : String :=
  (it.name).getD "N/A"

/-- One body row of the materials table (cell text contents):
`[it.get('code', ''), descricao_paragrafo, qty_str, it.get('unit', '')]`. -/
def rowOf (it : StoredItem) : List String :=
  [(it.code).getD "", nameCell it, qtyCell it, (it.unit).getD ""]

/-- The fixed header row `['CÓDIGO', 'DESCRIÇÃO', 'QTD', 'UN']`. -/
def headerRow : List String := ["CÓDIGO", "DESCRIÇÃO", "QTD", "UN"]

/-- The materials table's data: the header row, then (guarded by
`if items:`, a no-op on the empty list) one appended row per item in
order. -/
def tableData (items : List StoredItem) : List (List String) :=
  if items.isEmpty then [headerRow] else headerRow :: items.map rowOf

/-- Column widths `col_widths = [3.5*cm, 10.5*cm, 2*cm, 2*cm]` (in cm). -/
def colWidths : List ℚ := [7/2, 21/2, 2, 2]

/-- The fixed signature block `ass_data` below the table. -/
def assData : List (List String) :=
  [["___________________________________", "___________________________________"],
   ["Responsável pela Separação/Entrega", "Técnico responsável pela retirada"],
   ["Data: ______/______/___________", "CPF/RG: _______________________"]]

/-- Column widths `[9*cm, 9*cm]` of the signature table (in cm). -/
def assWidths : List ℚ := [9, 9]

/-- A flowable appended to `elements` (dimensions in cm; table style
directives are not modelled). -/
inductive PdfElement where
  | image (path : String) (width height : ℚ)
  | spacer (width height : ℚ)
  | para (text : String) (style : String)
  | table (data : List (List String)) (widths : List ℚ)
  deriving DecidableEq, Repr

/-- The metadata block (client, technician, emission date); the f-string's
surrounding indentation whitespace is elided. -/
def infoText (client technician : String) (now : Instant) : String :=
  "<b>Cliente:</b> " ++ client ++ "<br/>" ++
    "<b>Responsável técnico:</b> " ++ technician ++ "<br/>" ++
    "<b>Data de emissão:</b> " ++ strftimeInfo now

/-- Result of `generate_pdf`: the returned `filepath` and the flowables
handed to `doc.build(elements)`. -/
structure PdfResult where
  filepath : String
  elements : List PdfElement
  deriving DecidableEq, Repr

/-- The renderer `generate_pdf(list_id, client, technician, items, company_name,
logo_path)`.  `exists?` stands for `os.path.exists`; `now` is the
wall-clock instant read by `datetime.now()` (read once here; the code
reads it twice in the same request). -/
def generate_pdf (exists? : String → Bool) (listId : Nat)
    (client technician : String) (items : List StoredItem)
    (company_name : String) (logo_path : Option String) (now : Instant) :
    PdfResult :=
  let filepath := pdfFilepath listId now
  let logoEls : List PdfElement :=
    match logo_path with
    | some p => if p ≠ "" && exists? p then
        [.image p 5 (5/2), .spacer 1 (3/10)] else []
    | none => []
  let headEls : List PdfElement :=
    [.para ("<b>" ++ company_name ++ "</b>") "Title", .spacer 1 (1/2),
     .para (infoText client technician now) "Normal", .spacer 1 (1/2)]
  let tail : List PdfElement :=
    [.table (tableData items) colWidths, .spacer 1 (5/2), .table assData assWidths]
  { filepath := filepath, elements := logoEls ++ headEls ++ tail }

section CollectorLemmas

/-- A successful lookup means the pair occurs in the form. -/
theorem formGet_mem_pair {form : List (String × String)} {k v : String}
    (h : formGet form k = some v) : (k, v) ∈ form := by
  rcases Option.map_eq_some'.mp h with ⟨p, hp, hv⟩
  have hmem := List.mem_of_find?_eq_some hp
  have hk := List.find?_some hp
  have h1 : p.1 = k := by simpa using hk
  have h2 : p = (k, v) := by cases p; simp_all
  exact h2 ▸ hmem

/-- A pair in the form guarantees some value for its key. -/
theorem formGet_isSome_of_mem {form : List (String × String)} {k : String}
    (h : k ∈ form.map Prod.fst) : ∃ v, formGet form k = some v := by
  induction form with
  | nil => simp at h
  | cons p rest ih =>
    by_cases hk : p.1 = k
    · exact ⟨p.2, by simp [formGet, List.find?_cons, hk]⟩
    · have hmem : k ∈ rest.map Prod.fst := by
        rcases List.mem_map.mp h with ⟨q, hq, hq1⟩
        rcases List.mem_cons.mp hq with rfl | hq'
        · exact absurd hq1 hk
        · exact List.mem_map.mpr ⟨q, hq', hq1⟩
      rcases ih hmem with ⟨v, hv⟩
      refine ⟨v, ?_⟩
      have hb : (p.1 == k) = false := by simpa using hk
      simp only [formGet, List.find?_cons, hb] at hv ⊢
      exact hv

/-- Members of the deduplicated key list come from the original list. -/
theorem dedupKeys_subset : ∀ (l seen : List String) (a : String),
    a ∈ dedupKeys l seen → a ∈ l := by
  intro l
  induction l with
  | nil => intro seen a h; simp [dedupKeys] at h
  | cons k ks ih =>
    intro seen a h
    unfold dedupKeys at h
    by_cases hs : k ∈ seen
    · simp only [if_pos hs] at h
      exact List.mem_cons_of_mem _ (ih _ _ h)
    · simp only [if_neg hs, List.mem_cons] at h
      rcases h with rfl | h
      · exact List.mem_cons_self _ _
      · exact List.mem_cons_of_mem _ (ih _ _ h)

/-- A key of the list not yet seen appears in the deduplicated list. -/
theorem mem_dedupKeys : ∀ (l seen : List String) (a : String),
    a ∈ l → a ∉ seen → a ∈ dedupKeys l seen := by
  intro l
  induction l with
  | nil => intro seen a h _; simp at h
  | cons k ks ih =>
    intro seen a h hns
    unfold dedupKeys
    by_cases hs : k ∈ seen
    · simp only [if_pos hs]
      rcases List.mem_cons.mp h with rfl | h'
      · exact absurd hs hns
      · exact ih _ _ h' hns
    · simp only [if_neg hs, List.mem_cons]
      by_cases hak : a = k
      · exact Or.inl hak
      · rcases List.mem_cons.mp h with rfl | h'
        · exact Or.inl rfl
        · exact Or.inr (ih _ _ h' (by simp [hak, hns]))

/-- A key with a value is iterated by the collection loop. -/
theorem mem_formKeys_of_formGet {form : List (String × String)} {k v : String}
    (h : formGet form k = some v) : k ∈ formKeys form :=
  mem_dedupKeys _ _ _ (List.mem_map.mpr ⟨(k, v), formGet_mem_pair h, rfl⟩)
    (List.not_mem_nil k)

/-- Every iterated key has a value in the form. -/
theorem formGet_isSome_of_mem_formKeys {form : List (String × String)} {k : String}
    (h : k ∈ formKeys form) : ∃ v, formGet form k = some v :=
  formGet_isSome_of_mem (dedupKeys_subset _ _ _ h)

/-- An appended item was built from a positively parsed quantity. -/
theorem processKey_pos {form : List (String × String)} {key : String} {it : LineItem}
    (h : processKey form key = Except.ok (some it)) : 0 < it.qty := by
  unfold processKey at h
  split at h
  · split at h
    · exact absurd h (by simp)
    · split at h
      · exact absurd h (by simp)
      · split at h
        · exact absurd h (by simp)
        · split at h
          next hq =>
            simp only [Except.ok.injEq, Option.some.injEq] at h
            rw [← h]
            exact hq
          next => exact absurd h (by simp)
  · exact absurd h (by simp)

/-- A candidate with a nonempty quantity value that parses positive is
appended as the item built from the extracted suffix. -/
theorem processKey_appends {form : List (String × String)} {key v : String} {q : ℚ}
    (hpre : strStartsWith key "qty_extra_" = true) (hg : formGet form key = some v)
    (hv : v ≠ "") (hp : pyFloat? v = some q) (hq : 0 < q) :
    processKey form key = Except.ok (some (mkItem form (extractUid key) q)) := by
  simp [processKey, hpre, hg, hv, hp, hq]

/-- Every item of a successful collection has a strictly positive qty. -/
theorem collectAux_qty_pos (form : List (String × String)) :
    ∀ (ks : List String) (items : List LineItem),
      collectAux form ks = Except.ok items → ∀ it ∈ items, 0 < it.qty := by
  intro ks
  induction ks with
  | nil =>
    intro items h it hit
    unfold collectAux at h
    simp only [Except.ok.injEq] at h
    rw [← h] at hit
    simp at hit
  | cons k ks ih =>
    intro items h it hit
    unfold collectAux at h
    cases hk : processKey form k with
    | error e => rw [hk] at h; exact absurd h (by simp)
    | ok o =>
      rw [hk] at h
      cases o with
      | none => exact ih items h it hit
      | some it' =>
        cases hr : collectAux form ks with
        | error e => rw [hr] at h; exact absurd h (by simp)
        | ok rest =>
          rw [hr] at h
          simp only [Except.ok.injEq] at h
          rw [← h] at hit
          rcases List.mem_cons.mp hit with rfl | hit'
          · exact processKey_pos hk
          · exact ih rest hr it hit'

/-- An item appended for an iterated key is in the collected output. -/
theorem collectAux_mem (form : List (String × String)) :
    ∀ (ks : List String) (key : String) (items : List LineItem) (it : LineItem),
      key ∈ ks → processKey form key = Except.ok (some it) →
      collectAux form ks = Except.ok items → it ∈ items := by
  intro ks
  induction ks with
  | nil => intro key items it h; simp at h
  | cons k ks ih =>
    intro key items it hmem hproc h
    unfold collectAux at h
    rcases List.mem_cons.mp hmem with rfl | hmem'
    · rw [hproc] at h
      cases hr : collectAux form ks with
      | error e => rw [hr] at h; exact absurd h (by simp)
      | ok rest =>
        rw [hr] at h
        simp only [Except.ok.injEq] at h
        rw [← h]
        exact List.mem_cons_self _ _
    · cases hk : processKey form k with
      | error e => rw [hk] at h; exact absurd h (by simp)
      | ok o =>
        rw [hk] at h
        cases o with
        | none => exact ih key items it hmem' hproc h
        | some it' =>
          cases hr : collectAux form ks with
          | error e => rw [hr] at h; exact absurd h (by simp)
          | ok rest =>
            rw [hr] at h
            simp only [Except.ok.injEq] at h
            rw [← h]
            exact List.mem_cons_of_mem _ (ih key rest it hmem' hproc hr)

/-- A loop all of whose iterations skip collects nothing. -/
theorem collectAux_all_skip (form : List (String × String)) :
    ∀ (ks : List String), (∀ k ∈ ks, processKey form k = Except.ok none) →
      collectAux form ks = Except.ok [] := by
  intro ks
  induction ks with
  | nil => intro _; rfl
  | cons k ks ih =>
    intro h
    unfold collectAux
    rw [h k (List.mem_cons_self _ _)]
    exact ih (fun k' hk' => h k' (List.mem_cons_of_mem _ hk'))

/-- A loop one of whose iterations raises makes the whole request raise. -/
theorem collectAux_error_of_mem (form : List (String × String)) :
    ∀ (ks : List String) (key : String) (e : String),
      key ∈ ks → processKey form key = Except.error e →
      ∃ e', collectAux form ks = Except.error e' := by
  intro ks
  induction ks with
  | nil => intro key e h; simp at h
  | cons k ks ih =>
    intro key e hmem hproc
    unfold collectAux
    cases hk : processKey form k with
    | error e0 => exact ⟨e0, rfl⟩
    | ok o =>
      have hmem' : key ∈ ks := by
        rcases List.mem_cons.mp hmem with rfl | h'
        · rw [hk] at hproc; exact absurd hproc (by simp)
        · exact h'
      rcases ih key e hmem' hproc with ⟨e', he'⟩
      cases o with
      | none => exact ⟨e', he'⟩
      | some it => rw [he']; exact ⟨e', rfl⟩

end CollectorLemmas

/-- C2: for every input mapping, every `LineItem` a successful collection
produces has `qty > 0` (the qty is numeric by construction: the stored
dict holds `float(qty)`), and every created record's item list is
non-empty with every element of strictly positive quantity. -/
theorem collect_qty_pos (form : List (String × String)) (items : List LineItem) :
    (collect form = Except.ok items → ∀ it ∈ items, 0 < it.qty) ∧
    (create form = CreateResult.created items →
      items ≠ [] ∧ ∀ it ∈ items, 0 < it.qty) := by
  constructor
  · intro h
    exact collectAux_qty_pos form (formKeys form) items h
  · intro h
    unfold create at h
    cases hc : formGet form "client" with
    | none => rw [hc] at h; exact absurd h (by simp)
    | some c =>
      rw [hc] at h
      cases ht : formGet form "technician" with
      | none => rw [ht] at h; exact absurd h (by simp)
      | some t =>
        rw [ht] at h
        cases hcol : collect form with
        | error e => rw [hcol] at h; exact absurd h (by simp)
        | ok l =>
          rw [hcol] at h
          cases l with
          | nil => exact absurd h (by simp)
          | cons a as =>
            simp only [CreateResult.created.injEq] at h
            rw [← h]
            exact ⟨by simp, collectAux_qty_pos form (formKeys form) (a :: as) hcol⟩

/-- Witness for C2 at end-to-end scenario 1's input mapping. -/
theorem collect_qty_pos_witness :
    ([⟨"PNL550", "Painel Solar 550W", "un", 3⟩] : List LineItem) ≠ [] ∧
      (0 : ℚ) < 3 := by
  have h := collect_qty_pos
    [("client", "Ana"), ("technician", "Bea"), ("qty_extra_1", "3"),
     ("code_extra_1", "PNL550"), ("name_extra_1", "Painel Solar 550W"),
     ("unit_extra_1", "un")]
    [⟨"PNL550", "Painel Solar 550W", "un", 3⟩]
  exact ⟨(h.2 (by decide)).1,
    h.1 (by decide) ⟨"PNL550", "Painel Solar 550W", "un", 3⟩ (by simp)⟩

/-- C3: when the Collector returns an empty item sequence (and the request
carries the mandatory client/technician fields, so collection is reached),
the `create` route takes the no-items branch: a warning is flashed, no
record is inserted, and the user is redirected back to the entry form. -/
theorem create_no_items (form : List (String × String)) (c t : String)
    (hc : formGet form "client" = some c)
    (ht : formGet form "technician" = some t)
    (h : collect form = Except.ok []) :
    create form = CreateResult.noItemsRedirect := by
  unfold create
  rw [hc, ht, h]

/-- Witness for C3 at end-to-end scenario 2's input mapping. -/
theorem create_no_items_witness :
    create [("client", "Ana"), ("technician", "Bea"), ("qty_extra_1", "0")] =
      CreateResult.noItemsRedirect :=
  create_no_items _ "Ana" "Bea" (by decide) (by decide) (by decide)

/-- C9: end-to-end scenario 1 — the four-field mapping with suffix `1`
collects exactly one `LineItem` with all four fields filled and qty `3.0`. -/
theorem collect_scenario_one :
    collect [("qty_extra_1", "3"), ("code_extra_1", "PNL550"),
      ("name_extra_1", "Painel Solar 550W"), ("unit_extra_1", "un")] =
      Except.ok [⟨"PNL550", "Painel Solar 550W", "un", 3⟩] := by
  decide

/-- C1 counterexample: a present, non-empty, non-numeric quantity value is
not silently discarded — the uncaught `float(qty)` conversion raises, so
the Collector aborts with an exception and `create` surfaces it (an HTTP
500), contradicting the claim that no exception is raised. -/
theorem collect_nonnumeric_raises :
    collect [("qty_extra_1", "abc")] =
      Except.error "ValueError: could not convert string to float" ∧
    create [("client", "Ana"), ("technician", "Bea"), ("qty_extra_1", "abc")] =
      CreateResult.exception "ValueError: could not convert string to float" := by
  constructor
  · decide
  · decide

/-- C1 (amended): a quantity field whose value is empty, or parses to a
number `≤ 0`, is silently discarded — when every quantity field is of that
kind the Collector returns `ok []` and raises nothing; but a present,
non-empty, non-numeric quantity value raises an uncaught `ValueError`
instead of being discarded. -/
theorem collect_discards_silently (form : List (String × String)) :
    ((∀ k v, strStartsWith k "qty_extra_" = true → formGet form k = some v →
        v = "" ∨ ∃ q, pyFloat? v = some q ∧ q ≤ 0) →
      collect form = Except.ok []) ∧
    (∀ k v, strStartsWith k "qty_extra_" = true → formGet form k = some v →
      v ≠ "" → pyFloat? v = none → ∃ e, collect form = Except.error e) := by
  constructor
  · intro hall
    apply collectAux_all_skip
    intro k hk
    unfold processKey
    cases hpre : strStartsWith k "qty_extra_" with
    | false => simp [hpre]
    | true =>
      rcases formGet_isSome_of_mem_formKeys hk with ⟨v, hv⟩
      rcases hall k v hpre hv with rfl | ⟨q, hq, hq0⟩
      · simp [hv]
      · have hne : v ≠ "" := by
          intro hcon
          rw [hcon] at hq
          have h0 : pyFloat? "" = none := by decide
          rw [h0] at hq
          cases hq
        simp [hv, hne, hq, not_lt.mpr hq0]
  · intro k v hpre hv hne hp
    have hproc : processKey form k =
        Except.error "ValueError: could not convert string to float" := by
      simp [processKey, hpre, hv, hne, hp]
    exact collectAux_error_of_mem form (formKeys form) k _
      (mem_formKeys_of_formGet hv) hproc

/-- Witness for C1 (amended): a mapping whose quantity values are empty,
zero and negative collects nothing and raises nothing; a non-numeric one
raises. -/
theorem collect_discards_silently_witness :
    collect [("qty_extra_1", "0"), ("qty_extra_2", ""), ("qty_extra_3", "-2")] =
      Except.ok [] ∧
    ∃ e, collect [("qty_extra_9", "x1")] = Except.error e := by
  constructor
  · apply (collect_discards_silently _).1
    intro k v _ hkv
    have hm := formGet_mem_pair hkv
    simp only [List.mem_cons, List.not_mem_nil, or_false] at hm
    rcases hm with h | h | h
    · injection h with h1 h2
      subst h1; subst h2
      exact Or.inr ⟨0, by decide, le_refl 0⟩
    · injection h with h1 h2
      subst h1; subst h2
      exact Or.inl rfl
    · injection h with h1 h2
      subst h1; subst h2
      exact Or.inr ⟨-2, by decide, by decide⟩
  · exact (collect_discards_silently _).2 "qty_extra_9" "x1"
      (by decide) (by decide) (by decide) (by decide)

/-- C4: a candidate key whose quantity value parses to a positive number is
collected even when sibling descriptive fields are absent: the built
`LineItem` (which, as a `LineItem`, always carries all four fields) is in
the output with qty the parsed value, and each absent sibling field
defaults to the empty string. -/
theorem collect_missing_siblings (form : List (String × String))
    (key v : String) (q : ℚ) (items : List LineItem)
    (hpre : strStartsWith key "qty_extra_" = true)
    (hg : formGet form key = some v) (hv : v ≠ "")
    (hp : pyFloat? v = some q) (hq : 0 < q)
    (hcol : collect form = Except.ok items) :
    mkItem form (extractUid key) q ∈ items ∧
    (mkItem form (extractUid key) q).qty = q ∧
    (formGet form ("code_extra_" ++ extractUid key) = none →
      (mkItem form (extractUid key) q).code = "") ∧
    (formGet form ("name_extra_" ++ extractUid key) = none →
      (mkItem form (extractUid key) q).name = "") ∧
    (formGet form ("unit_extra_" ++ extractUid key) = none →
      (mkItem form (extractUid key) q).unit = "") := by
  refine ⟨?_, rfl, ?_, ?_, ?_⟩
  · exact collectAux_mem form (formKeys form) key items _
      (mem_formKeys_of_formGet hg) (processKey_appends hpre hg hv hp hq) hcol
  · intro h; simp [mkItem, h]
  · intro h; simp [mkItem, h]
  · intro h; simp [mkItem, h]

/-- Witness for C4: a lone quantity field with no siblings still yields its
item, whose descriptive fields are all the empty string. -/
theorem collect_missing_siblings_witness :
    mkItem [("qty_extra_7", "2")] (extractUid "qty_extra_7") 2 ∈
      [mkItem [("qty_extra_7", "2")] (extractUid "qty_extra_7") 2] ∧
    (mkItem [("qty_extra_7", "2")] (extractUid "qty_extra_7") 2).code = "" ∧
    (mkItem [("qty_extra_7", "2")] (extractUid "qty_extra_7") 2).name = "" ∧
    (mkItem [("qty_extra_7", "2")] (extractUid "qty_extra_7") 2).unit = "" := by
  have h := collect_missing_siblings [("qty_extra_7", "2")] "qty_extra_7" "2" 2
    [mkItem [("qty_extra_7", "2")] (extractUid "qty_extra_7") 2]
    (by decide) (by decide) (by decide) (by decide) (by decide) (by decide)
  exact ⟨h.1, h.2.2.1 (by decide), h.2.2.2.1 (by decide), h.2.2.2.2 (by decide)⟩

section RendererLemmas

/-- The positional rendering of a float always contains a point. -/
theorem dot_mem_reprPos (q : ℚ) : '.' ∈ (reprPos q).data := by
  have hdot : '.' ∈ (".").data := by decide
  have hdot0 : '.' ∈ (".0").data := by decide
  unfold reprPos
  split
  all_goals dsimp only
  all_goals split
  all_goals simp only [String.data_append, List.mem_append]
  all_goals tauto

/-- While `repr` stays positional, the rendering of a float contains a
point (the scientific branch can lack one, e.g. `1e-05`). -/
theorem dot_mem_pyFloatRepr (q : ℚ) (h : usesSciRepr q = false) :
    '.' ∈ (pyFloatRepr q).data := by
  unfold pyFloatRepr
  split
  · decide
  · simp only [h, Bool.false_eq_true, if_false]
    exact dot_mem_reprPos q

/-- Replacing the point with a comma puts a comma in the output. -/
theorem comma_mem_replaceDotComma {s : String} (h : '.' ∈ s.data) :
    ',' ∈ (replaceDotComma s).data :=
  List.mem_map.mpr ⟨'.', h, by simp⟩

/-- Replacing the point with a comma leaves no point in the output. -/
theorem dot_not_mem_replaceDotComma (s : String) :
    '.' ∉ (replaceDotComma s).data := by
  intro h
  rcases List.mem_map.mp h with ⟨c, _, hc⟩
  by_cases h' : c = '.'
  · rw [if_pos h'] at hc
    exact absurd hc (by decide)
  · rw [if_neg h'] at hc
    exact h' hc

end RendererLemmas

/-- C5 counterexample: the Collector accepts the form value "0.00001"
(positive), storing qty 1e-05; CPython's `repr` of that float is
scientific — "1e-05", with no decimal point — so `.replace('.', ',')`
leaves it unchanged and the rendered quantity cell contains no comma,
refuting the claim that every non-whole numeric quantity renders with a
decimal comma. -/
theorem small_qty_renders_scientific :
    pyFloat? "0.00001" = some (mkRat 1 100000) ∧
    (mkRat 1 100000).den ≠ 1 ∧
    qtyCell ⟨some "C", some "N", some "un", some (PyVal.num (mkRat 1 100000))⟩ =
      "1e-05" ∧
    ',' ∉ (qtyCell ⟨some "C", some "N", some "un",
      some (PyVal.num (mkRat 1 100000))⟩).data := by
  refine ⟨by decide, by decide, by decide, by decide⟩

/-- C5 (amended): the quantity cell of a rendered row — a whole numeric
quantity prints with no decimals (`int(q_val)`); a non-whole numeric
quantity prints as the float's `repr` with the decimal point replaced by
a comma, which never contains a point and contains a comma whenever
`repr` is positional (decimal exponent in `[-4, 16)`) — outside that
range `repr` is scientific and the cell may hold no comma at all; a
quantity that `float()` cannot coerce prints as its raw stored text.
`qtyCell` is a total function: the renderer never raises while
formatting. -/
theorem qty_formatting (it : StoredItem) (q : ℚ) (s : String) :
    (it.qty = some (PyVal.num q) → q.den = 1 → qtyCell it = toString q.num) ∧
    (it.qty = some (PyVal.num q) → q.den ≠ 1 →
      qtyCell it = replaceDotComma (pyFloatRepr q) ∧
      '.' ∉ (qtyCell it).data ∧
      (usesSciRepr q = false → ',' ∈ (qtyCell it).data)) ∧
    (it.qty = some (PyVal.str s) → pyFloat? s = none → qtyCell it = s) := by
  refine ⟨?_, ?_, ?_⟩
  · intro h hden
    simp [qtyCell, h, pyFloatOfQty, hden]
  · intro h hden
    have he : qtyCell it = replaceDotComma (pyFloatRepr q) := by
      simp [qtyCell, h, pyFloatOfQty, hden]
    refine ⟨he, he ▸ dot_not_mem_replaceDotComma _, ?_⟩
    intro hsci
    exact he ▸ comma_mem_replaceDotComma (dot_mem_pyFloatRepr q hsci)
  · intro h hp
    simp [qtyCell, h, pyFloatOfQty, hp, pyStrOfQty]

/-- Witness for C5 (amended): qty 6.0 renders "6", qty 2.5 (positional
`repr`) renders "2,5" with a comma present, and the corrupted string
"bad" renders verbatim. -/
theorem qty_formatting_witness :
    qtyCell ⟨some "C", some "N", some "un", some (PyVal.num 6)⟩ = "6" ∧
    qtyCell ⟨some "C", some "N", some "un", some (PyVal.num (mkRat 5 2))⟩ = "2,5" ∧
    ',' ∈ (qtyCell ⟨some "C", some "N", some "un",
      some (PyVal.num (mkRat 5 2))⟩).data ∧
    qtyCell ⟨some "C", some "N", some "un", some (PyVal.str "bad")⟩ = "bad" := by
  refine ⟨?_, ?_, ?_, ?_⟩
  · exact ((qty_formatting _ 6 "").1 rfl (by decide)).trans (by decide)
  · exact ((qty_formatting _ (mkRat 5 2) "").2.1 rfl (by decide)).1.trans (by decide)
  · exact ((qty_formatting _ (mkRat 5 2) "").2.1 rfl (by decide)).2.2 (by decide)
  · exact (qty_formatting _ 0 "bad").2.2 rfl (by decide)

/-- C8 counterexample: a line item whose name is stored as the empty
string renders an empty description cell — `it.get('name', 'N/A')` only
substitutes the placeholder when the key is absent, so the claim that an
empty name never renders as an empty cell fails on this input. -/
theorem empty_name_renders_empty :
    nameCell ⟨some "PNL550", some "", some "un", some (PyVal.num 3)⟩ = "" ∧
    rowOf ⟨some "PNL550", some "", some "un", some (PyVal.num 3)⟩ =
      ["PNL550", "", "3", "un"] := by
  constructor
  · decide
  · decide

/-- C8 (amended): the renderer substitutes the `'N/A'` placeholder for the
description only when the `name` key is absent from the stored item; a
present name — the empty string included — renders verbatim. -/
theorem name_placeholder (it : StoredItem) :
    (it.name = none → nameCell it = "N/A") ∧
    (∀ s, it.name = some s → nameCell it = s) := by
  constructor
  · intro h; simp [nameCell, h]
  · intro s h; simp [nameCell, h]

/-- Witness for C8 (amended). -/
theorem name_placeholder_witness :
    nameCell ⟨none, none, none, none⟩ = "N/A" ∧
    nameCell ⟨some "C", some "X", some "u", none⟩ = "X" :=
  ⟨(name_placeholder _).1 rfl, (name_placeholder _).2 "X" rfl⟩

/-- C10: a stored item with no `qty` key renders its quantity cell as
"0" — the defensive default `it.get('qty', 0)` flows through
`float(0)`, which is whole, so the no-decimals path prints "0" (not the
raw-text fallback, and without raising). -/
theorem missing_qty_renders_zero (it : StoredItem) (h : it.qty = none) :
    qtyCell it = "0" := by
  unfold qtyCell
  rw [h]
  decide

/-- Witness for C10. -/
theorem missing_qty_renders_zero_witness :
    qtyCell ⟨some "C", some "N", some "un", none⟩ = "0" :=
  missing_qty_renders_zero _ rfl

/-- C7: for every item sequence the rendered document contains the
materials table whose data is the fixed 4-column header row followed by
one body row per item in order (so `n` items give `n + 1` table rows), and
contains the fixed signature block irrespective of the item count. -/
theorem table_structure (exists? : String → Bool) (listId : Nat)
    (client technician : String) (items : List StoredItem)
    (company_name : String) (logo_path : Option String) (now : Instant) :
    PdfElement.table (tableData items) colWidths ∈
      (generate_pdf exists? listId client technician items company_name
        logo_path now).elements ∧
    PdfElement.table assData assWidths ∈
      (generate_pdf exists? listId client technician items company_name
        logo_path now).elements ∧
    (tableData items).length = items.length + 1 ∧
    (tableData items)[0]? = some headerRow ∧
    (∀ (i : Nat) (it : StoredItem), items[i]? = some it →
      (tableData items)[i + 1]? = some (rowOf it)) := by
  refine ⟨?_, ?_, ?_, ?_, ?_⟩
  · simp [generate_pdf]
  · simp [generate_pdf]
  · cases items with
    | nil => simp [tableData]
    | cons a as => simp [tableData]
  · cases items with
    | nil => simp [tableData]
    | cons a as => simp [tableData]
  · intro i it h
    cases items with
    | nil => simp at h
    | cons a as =>
      simp only [tableData, List.isEmpty_cons, Bool.false_eq_true, if_false,
        List.getElem?_cons_succ]
      rw [List.getElem?_map, h]
      rfl

/-- Witness for C7 at end-to-end scenario 3: two items, no logo path —
the table has exactly 3 rows and the signature block is present. -/
theorem table_structure_witness :
    (tableData [⟨some "A", some "B", some "un", some (PyVal.num 1)⟩,
      ⟨none, none, none, some (PyVal.num (mkRat 5 2))⟩]).length = 3 ∧
    (tableData [⟨some "A", some "B", some "un", some (PyVal.num 1)⟩,
      ⟨none, none, none, some (PyVal.num (mkRat 5 2))⟩])[1]? =
      some (rowOf ⟨some "A", some "B", some "un", some (PyVal.num 1)⟩) ∧
    PdfElement.table assData assWidths ∈
      (generate_pdf (fun _ => false) 1 "cli" "tec"
        [⟨some "A", some "B", some "un", some (PyVal.num 1)⟩,
         ⟨none, none, none, some (PyVal.num (mkRat 5 2))⟩]
        "Comp" none ⟨2025, 10, 12, 9, 0, 0, 0⟩).elements := by
  have h := table_structure (fun _ => false) 1 "cli" "tec"
    [⟨some "A", some "B", some "un", some (PyVal.num 1)⟩,
     ⟨none, none, none, some (PyVal.num (mkRat 5 2))⟩]
    "Comp" none ⟨2025, 10, 12, 9, 0, 0, 0⟩
  exact ⟨h.2.2.1, h.2.2.2.2 0 _ rfl, h.2.1⟩

/-- C6 counterexample: two renderer calls at distinct wall-clock instants
(differing only below one second) with the same record id produce the
identical output file path — the `%Y-%m-%d_%H%M%S` filename format drops
sub-second precision, so repeated renders can overwrite each other,
contradicting uniqueness per call. -/
theorem pdf_path_collision :
    (⟨2025, 10, 12, 9, 30, 0, 0⟩ : Instant) ≠ ⟨2025, 10, 12, 9, 30, 0, 500000⟩ ∧
    (generate_pdf (fun _ => false) 7 "cli" "tec" [] "Comp" none
        ⟨2025, 10, 12, 9, 30, 0, 0⟩).filepath =
      (generate_pdf (fun _ => false) 7 "cli" "tec" [] "Comp" none
        ⟨2025, 10, 12, 9, 30, 0, 500000⟩).filepath := by
  constructor
  · decide
  · decide

/-- C6 (amended): the output path is derived from the record id plus a
second-resolution generation timestamp, so renders whose formatted
timestamps differ never collide; only two renders of the same record
within the same formatted second share a path. -/
theorem pdf_path_injective (listId : Nat) (t t' : Instant)
    (h : strftimeYmdHMS t ≠ strftimeYmdHMS t') :
    pdfFilepath listId t ≠ pdfFilepath listId t' := by
  intro heq
  apply h
  have hd := congrArg String.data heq
  simp only [pdfFilepath, pdfFilename, String.data_append, List.append_assoc] at hd
  have h1 := List.append_cancel_left hd
  have h2 := List.append_cancel_left h1
  have h3 := List.append_cancel_left h2
  have h4 := List.append_cancel_left h3
  have h5 := List.append_cancel_left h4
  exact String.ext (List.append_cancel_right h5)

/-- Witness for C6 (amended): renders one second apart get distinct paths. -/
theorem pdf_path_injective_witness :
    pdfFilepath 7 ⟨2025, 10, 12, 9, 30, 0, 0⟩ ≠
      pdfFilepath 7 ⟨2025, 10, 12, 9, 30, 1, 0⟩ :=
  pdf_path_injective 7 _ _ (by decide)
